import Mathlib

/-!
Verification of the YTLantern resolution and download orchestration
subsystem.  The JavaScript services are shallowly embedded as executable
Lean definitions: JS numbers that the code treats as integral become
`Nat`/`Int`, possibly-undefined values become `Option`, thrown exceptions
become `Except`/`Option` results, and subprocess or filesystem activity is
made explicit through oracle parameters and effect traces.
-/

namespace YTLantern

/-! ## JS-style character and string helpers

The services manipulate strings with regular expressions and the standard
library functions `trim`, `split`, `includes` and `toLowerCase`.  These are
re-implemented here over `List Char` so that every proof can evaluate them.
-/

/-- Character class `[a-z]` used by the subtitle language regex. -/
def isLowerAlpha (c : Char) : Bool :=
  'a' ≤ c && c ≤ 'z'

/-- Character class `[a-zA-Z]` used by the subtitle language regex. -/
def isAsciiAlpha (c : Char) : Bool :=
  ('a' ≤ c && c ≤ 'z') || ('A' ≤ c && c ≤ 'Z')

/-- Character class `\d`. -/
def isDigitChar (c : Char) : Bool :=
  '0' ≤ c && c ≤ '9'

/-- Character class `\w` (equal to `[A-Za-z0-9_]`). -/
def isWordChar (c : Char) : Bool :=
  isAsciiAlpha c || isDigitChar c || c == '_'

/-- Whitespace as matched by `\s` and stripped by the JS `trim` (the inputs
here are ASCII, so space, tab, carriage return, newline and form/vertical
feeds suffice). -/
def isSpaceChar (c : Char) : Bool :=
  c == ' ' || c == '\t' || c == '\r' || c == '\n' ||
  c == '\x0b' || c == '\x0c'

/-- Does the first list occur as a prefix of the second? -/
def listPrefixOf : List Char → List Char → Bool
  | [], _ => true
  | _ :: _, [] => false
  | a :: as, b :: bs => a == b && listPrefixOf as bs

/-- Does `needle` occur as a contiguous sublist of `hay`?  This is the JS
`String.prototype.includes`. -/
def listContainsSub (needle : List Char) : List Char → Bool
  | [] => needle.isEmpty
  | h :: t => listPrefixOf needle (h :: t) || listContainsSub needle t

/-- JS `hay.includes(needle)`. -/
def jsIncludes (hay needle : String) : Bool :=
  listContainsSub needle.data hay.data

/-- JS `String.prototype.trim` on the character list. -/
def listTrim (cs : List Char) : List Char :=
  ((cs.dropWhile isSpaceChar).reverse.dropWhile isSpaceChar).reverse

/-- JS `s.trim()`. -/
def jsTrim (s : String) : String :=
  String.mk (listTrim s.data)

/-- JS `s.toLowerCase()` (ASCII). -/
def jsToLower (s : String) : String :=
  String.mk (s.data.map Char.toLower)

/-- Worker for `split(/(\r\n|\n)/)`: accumulate the current token in
reverse and emit token and captured separator at each newline. -/
def splitLinesAux : List Char → List Char → List String
  | acc, [] => [String.mk acc.reverse]
  | acc, '\r' :: '\n' :: rest => String.mk acc.reverse :: "\r\n" :: splitLinesAux [] rest
  | acc, '\n' :: rest => String.mk acc.reverse :: "\n" :: splitLinesAux [] rest
  | acc, c :: rest => splitLinesAux (c :: acc) rest

/-- JS `s.split(/(\r\n|\n)/)`: because the separator alternation is a
capture group, the separators appear as elements of the result list
between the tokens. -/
def jsSplitLines (s : String) : List String :=
  splitLinesAux [] s.data

/-! ## Quality classifiers (videoParser.js, `mapVideoQuality` and
`mapAudioQuality`)

Heights and bitrates arrive from the tool as JSON numbers that may be
absent; an absent number is modelled as `none`, for which every JS `>=`
comparison is false.  The values the code compares against are integral,
so present numbers are modelled as `Nat`. -/

/-- Result triple of `mapVideoQuality`. -/
structure QualityInfo where
  quality : String
  standard : String
  label : String
deriving Repr, DecidableEq

/-- JS `height >= bound`, where `height` may be `undefined` (every
comparison with `undefined` is false). -/
def geOpt (n : Option Nat) (bound : Nat) : Bool :=
  match n with
  | none => false
  | some v => bound ≤ v

/-- JS `abr >= bound` on a possibly-absent fractional number.  JSON
numbers are exact decimals, modelled as rationals; a comparison with
`undefined` is false. -/
def geOptQ (n : Option ℚ) (bound : ℚ) : Bool :=
  match n with
  | none => false
  | some v => decide (bound ≤ v)

/-- JS `Number.prototype.toFixed(0)` read back by the `parseFloat` the
sort applies to it: ECMA picks the integer closest to the value and the
larger one on ties, which is the floor of the value plus one half. -/
def jsToFixed0 (x : ℚ) : Int :=
  (x + 1 / 2).floor

/-- `mapVideoQuality(height, formatNote)` from videoParser.js: descending
height thresholds first, then a case-insensitive substring search over the
format note, then an unknown fallback. -/
def mapVideoQuality (height : Option Nat) (formatNote : Option String) : QualityInfo :=
  let rawNote := formatNote.getD ""
  let note := jsToLower rawNote
  if geOpt height 2160 then ⟨"2160p", "4K", "2160p 4K"⟩
  else if geOpt height 1440 then ⟨"1440p", "2K", "1440p 2K"⟩
  else if geOpt height 1080 then ⟨"1080p", "Full HD", "1080p Full HD"⟩
  else if geOpt height 720 then ⟨"720p", "HD", "720p HD"⟩
  else if geOpt height 480 then ⟨"480p", "SD", "480p 标清"⟩
  else if geOpt height 360 then ⟨"360p", "Low", "360p 流畅"⟩
  else if geOpt height 240 then ⟨"240p", "Low", "240p"⟩
  else if geOpt height 144 then ⟨"144p", "Low", "144p"⟩
  else if jsIncludes note "4k" || jsIncludes note "2160" then
    ⟨"2160p", "4K", if rawNote == "" then "2160p 4K" else rawNote⟩
  else if jsIncludes note "1440" || jsIncludes note "2k" then
    ⟨"1440p", "2K", if rawNote == "" then "1440p 2K" else rawNote⟩
  else if jsIncludes note "1080" || jsIncludes note "full hd" then
    ⟨"1080p", "Full HD", if rawNote == "" then "1080p Full HD" else rawNote⟩
  else if jsIncludes note "720" || jsIncludes note "hd" then
    ⟨"720p", "HD", if rawNote == "" then "720p HD" else rawNote⟩
  else if jsIncludes note "480" then
    ⟨"480p", "SD", if rawNote == "" then "480p 标清" else rawNote⟩
  else if jsIncludes note "360" then
    ⟨"360p", "Low", if rawNote == "" then "360p 流畅" else rawNote⟩
  else ⟨"unknown", "Unknown", if rawNote == "" then "Unknown" else rawNote⟩

/-- `mapAudioQuality(abr)` from videoParser.js: descending bitrate
thresholds on the raw, possibly fractional bitrate; an absent bitrate
fails every comparison and lands in the unknown bucket. -/
def mapAudioQuality (abr : Option ℚ) : String :=
  if geOptQ abr 320 then "High (320kbps+)"
  else if geOptQ abr 192 then "Medium (192kbps+)"
  else if geOptQ abr 128 then "Standard (128kbps+)"
  else if geOptQ abr 96 then "Low (96kbps+)"
  else "Unknown"

/-! ## Subtitle listing scanner (videoParser.js, `parseSubtitles` and
`catchSubtitle`) -/

/-- Return value of `catchSubtitle`: the JS function returns `0` for the
header line, `-1` for the end of the subtitle list, and the captured
language code otherwise. -/
inductive CatchResult where
  | header
  | stop
  | lang (code : String)
deriving Repr, DecidableEq

/-- Greedy `[a-zA-Z]+` used by the optional region suffix of the language
regex. -/
def takeAlphaRun (cs : List Char) : List Char :=
  cs.takeWhile isAsciiAlpha

/-- Capture group of `^(danmaku|[a-z]{2}(?:-[a-zA-Z]+)?)` evaluated against
the characters of a line: the literal `danmaku` alternative is tried
first; otherwise two lowercase letters are required, and a dash followed
by at least one letter extends the capture (a dash followed by anything
else makes the optional group match empty, truncating the capture to the
two letters). -/
def langCapture (cs : List Char) : Option (List Char) :=
  if listPrefixOf "danmaku".data cs then
    some "danmaku".data
  else
    match cs with
    | a :: b :: rest =>
      if isLowerAlpha a && isLowerAlpha b then
        match rest with
        | '-' :: r =>
          let run := takeAlphaRun r
          if run.isEmpty then some [a, b] else some (a :: b :: '-' :: run)
        | _ => some [a, b]
      else none
    | _ => none

/-- `catchSubtitle(line)` from videoParser.js, on an already trimmed
line. -/
def catchSubtitle (line : String) : CatchResult :=
  if listPrefixOf "Language ".data line.data then
    .header
  else
    match langCapture line.data with
    | some code => .lang (String.mk code)
    | none => .stop

/-- Unanchored test for `marker` followed (possibly after other
characters) by a colon, as matched by the patterns
`.*Available automatic captions for .*?:` and
`.*Available subtitles for .*?:`. -/
def markerThenColon (marker : List Char) : List Char → Bool
  | [] => false
  | c :: rest =>
    (listPrefixOf marker (c :: rest) &&
      listContainsSub [':'] ((c :: rest).drop marker.length)) ||
    markerThenColon marker rest

/-- The automatic-captions marker line test of `parseSubtitles`. -/
def isAutoMarker (line : String) : Bool :=
  markerThenColon "Available automatic captions for ".data line.data

/-- The official-subtitles marker line test of `parseSubtitles`. -/
def isSubsMarker (line : String) : Bool :=
  markerThenColon "Available subtitles for ".data line.data

/-- Inner loop of `parseSubtitles`: scan the lines after the
official-subtitles header, skipping blanks and the `Language` header,
collecting captured language codes, and stopping at the first line that
matches neither. -/
def officialScan : List String → List String
  | [] => []
  | l :: rest =>
    let s := jsTrim l
    if s == "" then officialScan rest
    else
      match catchSubtitle s with
      | .stop => []
      | .header => officialScan rest
      | .lang code => code :: officialScan rest

/-- Result policy at the end of `parseSubtitles`: an empty official list
degrades to `["auto"]` when automatic captions were seen and to `[]`
otherwise; a non-empty official list is returned as is. -/
def finishSubs (officialSub : List String) (noAutoSub : Bool) : List String :=
  if officialSub.length < 1 then
    (if noAutoSub then [] else ["auto"])
  else officialSub

/-- Outer loop of `parseSubtitles` over the split lines, carrying the
`noAutoSub` flag: blanks are skipped, the automatic-captions marker
clears the flag, and the official-subtitles marker hands the remaining
lines to the inner scan and stops. -/
def scanSubLines : List String → Bool → List String
  | [], noAutoSub => finishSubs [] noAutoSub
  | l :: rest, noAutoSub =>
    let s := jsTrim l
    if s == "" then scanSubLines rest noAutoSub
    else if isAutoMarker s then scanSubLines rest false
    else if isSubsMarker s then finishSubs (officialScan rest) noAutoSub
    else scanSubLines rest noAutoSub

/-- `parseSubtitles` applied to the captured stdout of a successful
listing invocation. -/
def parseSubtitles (result : String) : List String :=
  scanSubLines (jsSplitLines result) true

/-- `parseSubtitles` including its try/catch: a failed listing invocation
(`none`) yields the empty list. -/
def parseSubtitlesFrom (toolOutput : Option String) : List String :=
  match toolOutput with
  | none => []
  | some out => parseSubtitles out

/-! ## Platform resolution for Bilibili (videoParser.js, `parseVideo`
lines 86 to 125)

The Bilibili branch runs only when the URL contains neither
`youtube.com` nor `youtu.be` and does contain `bilibili.com`; the video
identifier comes from the anchored pattern
`^https?:\/\/(?:www\.|m\.)?bilibili\.com\/video\/([\w\d]{11,14})\/?(?:\?.*)?$`
and the part number from the first occurrence of `[?&]p=(\d+)`. -/

/-- Strip a literal off the front of a character list, failing when it is
not a prefix. -/
def dropLit (lit cs : List Char) : Option (List Char) :=
  if listPrefixOf lit cs then some (cs.drop lit.length) else none

/-- The `(?:\?.*)?$` part of the Bilibili pattern: either nothing is left,
or a question mark followed by characters that contain no line
terminator (the JS dot does not match one and the dollar is
end-of-input). -/
def bQueryOk : List Char → Bool
  | [] => true
  | '?' :: q => q.all (fun c => !(c == '\n' || c == '\r'))
  | _ => false

/-- The `\/?(?:\?.*)?$` tail of the Bilibili pattern after the
identifier. -/
def bTailOk : List Char → Bool
  | [] => true
  | '/' :: t => bQueryOk t
  | '?' :: q => q.all (fun c => !(c == '\n' || c == '\r'))
  | _ => false

/-- Match the anchored Bilibili video URL pattern and return the captured
identifier.  The identifier class `[\w\d]` equals `\w`; because no word
character may follow the identifier inside the tail, the greedy bounded
repetition succeeds exactly when the maximal word-character run after
`video/` has length between 11 and 14 and the remaining characters form a
valid tail. -/
def bilibiliMatch (cs : List Char) : Option String :=
  match dropLit "http".data cs with
  | none => none
  | some cs1 =>
    let cs2 := match cs1 with
      | 's' :: t => t
      | _ => cs1
    match dropLit "://".data cs2 with
    | none => none
    | some cs3 =>
      let cs4 := match dropLit "www.".data cs3 with
        | some t => t
        | none =>
          match dropLit "m.".data cs3 with
          | some t => t
          | none => cs3
      match dropLit "bilibili.com/video/".data cs4 with
      | none => none
      | some cs5 =>
        let idRun := cs5.takeWhile isWordChar
        if 11 ≤ idRun.length && idRun.length ≤ 14 &&
            bTailOk (cs5.drop idRun.length) then
          some (String.mk idRun)
        else none

/-- First occurrence of `[?&]p=(\d+)` in the URL, capturing the greedy
digit run. -/
def pMatch : List Char → Option String
  | [] => none
  | c :: rest =>
    if c == '?' || c == '&' then
      match rest with
      | 'p' :: '=' :: r =>
        let ds := r.takeWhile isDigitChar
        if ds.isEmpty then pMatch rest else some (String.mk ds)
      | _ => pMatch rest
    else pMatch rest

/-- URL classification of `parseVideo` restricted to the Bilibili
outcome: `some (videoID, p)` exactly when the code reaches the tool
invocation with `website = "bilibili"`.  URLs that mention
`youtube.com` or `youtu.be` take the YouTube branch instead and can
never be classified as Bilibili. -/
def resolveBilibili (url : String) : Option (String × Option String) :=
  if jsIncludes url "youtube.com" || jsIncludes url "youtu.be" then none
  else if jsIncludes url "bilibili.com" then
    match bilibiliMatch url.data with
    | none => none
    | some vid => some (vid, pMatch url.data)
  else none

/-! ## Metadata extraction and format processing (videoParser.js,
`parseVideo` lines 127 to 230) -/

/-- JS truthiness of a possibly-absent string (absent and empty are
falsy). -/
def jsTruthyStr (o : Option String) : Bool :=
  match o with
  | none => false
  | some s => s != ""

/-- Retry URL construction of the Bilibili fallback: append `p=1` with
the separator chosen by `url.includes("?")`. -/
def retryUrlOf (url : String) : String :=
  if jsIncludes url "?" then url ++ "&p=1" else url ++ "?p=1"

/-- One tool-reported stream entry, keeping the JSON fields the format
loop reads.  Absent numbers are `none` (the code compares them with
`>=`, defaults them with `|| 0`, or hands them to the quality
classifiers, and every such comparison treats an absent value as
false).  The tool reports fractional bitrates, so `abr` and `vbr` are
exact decimal JSON numbers modelled as rationals; heights and byte
counts are integral. -/
structure RawFormat where
  format_id : String
  ext : String
  audio_ext : String
  video_ext : String
  abr : Option ℚ
  vbr : Option ℚ
  height : Option Nat
  resolution : String
  format_note : Option String
  format : Option String
  filesize : Option Nat
  filesize_approx : Option Nat
deriving Repr, DecidableEq

/-- The structured tool output fields that `parseVideo` reads. -/
structure ToolJson where
  title : String
  thumbnail : String
  duration : Nat
  uploader : String
  view_count : Nat
  upload_date : String
  description : Option String
  formats : Option (List RawFormat)
deriving Repr, DecidableEq

/-- JS `a || b || ""` over possibly-absent strings (absent and empty are
both falsy). -/
def jsOrStr (a b : Option String) : String :=
  let av := a.getD ""
  if av == "" then b.getD "" else av

/-- JS `a || b || 0` over possibly-absent numbers (absent and zero are
both falsy). -/
def jsOrNat (a b : Option Nat) : Nat :=
  let av := a.getD 0
  if av == 0 then b.getD 0 else av

/-- An element pushed onto the `audios` array.  The JS code stores the
rate as the decimal string `(abr || 0).toFixed(0)` and the sort reads
it back with `parseFloat`; that round trip recovers exactly the
rounded integer, which is what the embedding keeps, so rounding-induced
ties between distinct raw bitrates are preserved.  The displayed size
goes through floating-point megabyte formatting, so only its two inputs
are kept: the byte count `filesize || filesize_approx || 0` and the
approximation marker. -/
structure AudioEntry where
  id : String
  format : String
  rate : Int
  info : String
  sizeApprox : Bool
  sizeBytes : Nat
  quality : String
deriving Repr, DecidableEq

/-- An element pushed onto the `videos` array; the same representation
conventions as `AudioEntry` apply to `rate` (the rounded
`(vbr || 0).toFixed(0)`) and the size. -/
structure VideoEntry where
  id : String
  format : String
  scale : String
  frame : Option Nat
  rate : Int
  info : String
  sizeApprox : Bool
  sizeBytes : Nat
  quality : String
  standardQuality : String
deriving Repr, DecidableEq

/-- The audio entry built for a stream whose `audio_ext` is not
`"none"`: the stored rate is the `toFixed(0)` rounding of
`abr || 0`, while the quality label classifies the raw bitrate. -/
def mkAudioEntry (f : RawFormat) : AudioEntry :=
  { id := f.format_id
    format := f.ext
    rate := jsToFixed0 (f.abr.getD 0)
    info := jsOrStr f.format_note f.format
    sizeApprox := f.filesize_approx.getD 0 != 0
    sizeBytes := jsOrNat f.filesize f.filesize_approx
    quality := mapAudioQuality f.abr }

/-- The video entry built for a stream whose `audio_ext` is `"none"` and
whose `video_ext` is not `"none"`: the stored rate is the `toFixed(0)`
rounding of `vbr || 0`. -/
def mkVideoEntry (f : RawFormat) : VideoEntry :=
  let q := mapVideoQuality f.height f.format_note
  { id := f.format_id
    format := f.ext
    scale := f.resolution
    frame := f.height
    rate := jsToFixed0 (f.vbr.getD 0)
    info := q.label
    sizeApprox := f.filesize_approx.getD 0 != 0
    sizeBytes := jsOrNat f.filesize f.filesize_approx
    quality := q.quality
    standardQuality := q.standard }

/-- The `videoInfo.formats?.forEach` loop: streams with an audio track
are pushed onto `audios`, remaining streams with a video track onto
`videos`, and streams with neither are pushed nowhere. -/
def bucketFormats : List RawFormat → List AudioEntry × List VideoEntry
  | [] => ([], [])
  | f :: rest =>
    let (as, vs) := bucketFormats rest
    if f.audio_ext != "none" then (mkAudioEntry f :: as, vs)
    else if f.video_ext != "none" then (as, mkVideoEntry f :: vs)
    else (as, vs)

/-- Stable insertion used to model the JS in-place
`sort((a, b) => parseFloat(b.rate) - parseFloat(a.rate))`: the element is
placed before the first element whose key does not exceed its own, so
equal keys keep their original relative order, as the JS sort
guarantees. -/
def insertByKeyDesc (key : α → Int) (x : α) : List α → List α
  | [] => [x]
  | y :: ys =>
    if key y ≤ key x then x :: y :: ys else y :: insertByKeyDesc key x ys

/-- Stable descending sort by a numeric key. -/
def sortByKeyDesc (key : α → Int) : List α → List α
  | [] => []
  | x :: xs => insertByKeyDesc key x (sortByKeyDesc key xs)

/-- Lines 197 to 199 of videoParser.js: both arrays are sorted in place
by descending rate, and the best entries are the first elements of the
sorted arrays (`undefined`, modelled as `none`, for an empty array). -/
def processFormats (formats : List RawFormat) :
    List AudioEntry × List VideoEntry × Option AudioEntry × Option VideoEntry :=
  let (as, vs) := bucketFormats formats
  let sortedAs := sortByKeyDesc (fun a => a.rate) as
  let sortedVs := sortByKeyDesc (fun v => v.rate) vs
  (sortedAs, sortedVs, sortedAs.head?, sortedVs.head?)

/-- Specification-side selector: the first element of the list attaining
the maximal key, as the claim describes the best entry. -/
def firstMaxBy (key : α → Int) : List α → Option α
  | [] => none
  | x :: xs =>
    match firstMaxBy key xs with
    | none => some x
    | some m => if key x < key m then some m else some x

/-- The try/catch around the tool invocation in `parseVideo` (lines 134
to 158).  The extraction tool is an oracle from the URL on the command
line to `some` structured output or `none` for a thrown error.  The
result carries the output together with the possibly updated `p` and
`url` variables; the second component records every URL the tool was
invoked with, in order. -/
def runExtraction (extract : String → Option ToolJson) (website url : String)
    (p : Option String) :
    Option (ToolJson × Option String × String) × List String :=
  match extract url with
  | some j => (some (j, p, url), [url])
  | none =>
    if website == "bilibili" && !jsTruthyStr p then
      let ru := retryUrlOf url
      match extract ru with
      | some j => (some (j, some "1", ru), [url, ru])
      | none => (none, [url, ru])
    else (none, [url])

/-- The value returned by `parseVideo` (lines 204 to 224). -/
structure ParseResult where
  website : String
  v : String
  p : Option String
  title : String
  thumbnail : String
  duration : Nat
  uploader : String
  view_count : Nat
  upload_date : String
  description : String
  bestAudio : Option AudioEntry
  bestVideo : Option VideoEntry
  availableAudios : List AudioEntry
  availableVideos : List VideoEntry
  subs : List String
deriving Repr, DecidableEq

/-- `parseVideo` on a URL that classifies as Bilibili, parameterised by
the extraction oracle and by the listing oracle consumed by
`parseSubtitles` (`none` models a throwing invocation).  `none` is any
thrown parse failure. -/
def parseVideoBili (extract : String → Option ToolJson)
    (listSubs : String → Option String) (url : String) : Option ParseResult :=
  match resolveBilibili url with
  | none => none
  | some (vid, p0) =>
    match (runExtraction extract "bilibili" url p0).1 with
    | none => none
    | some (j, p1, url1) =>
      match processFormats (j.formats.getD []) with
      | (sortedAs, sortedVs, bA, bV) =>
        some
          { website := "bilibili"
            v := vid
            p := p1
            title := j.title
            thumbnail := j.thumbnail
            duration := j.duration
            uploader := j.uploader
            view_count := j.view_count
            upload_date := j.upload_date
            description := (j.description.map
              (fun s => String.mk (s.data.take 500))).getD ""
            bestAudio := bA
            bestVideo := bV
            availableAudios := sortedAs
            availableVideos := sortedVs
            subs := parseSubtitlesFrom (listSubs url1) }

/-! ## Shared pieces of the two downloader services -/

/-- The single-quote character used when the services splice values into
command lines. -/
def quoteChar : Char := '\x27'

/-- Wrap a string in single quotes as the JS template literals do. -/
def sq (s : String) : String :=
  String.mk (quoteChar :: (s.data ++ [quoteChar]))

/-- The shared temporary-storage root.  At runtime it is resolved from
the module location (`join(__dirname, "../../tmp")`); every service and
the status check use the same resolved path, kept here as one
constant. -/
def tmpDir : String := "tmp"

/-- Runtime-resolved cookie file path (`join(__dirname,
"../cookies.txt")`), shared by the services as one constant. -/
def cookiePath : String := "cookies.txt"

/-- Node `join` for the two-component paths the services build. -/
def joinPath (a b : String) : String := a ++ "/" ++ b

/-- `getWebsiteUrl` as defined identically in videoDownloader.js and
subtitleDownloader.js: the default branch also produces a YouTube
URL. -/
def getWebsiteUrl (website id : String) (p : Option String) : String :=
  if website == "bilibili" then
    "https://www.bilibili.com/video/" ++ id ++
      (if jsTruthyStr p then "?p=" ++ p.getD "" else "")
  else
    "https://www.youtube.com/watch?v=" ++ id

/-- The identifier pattern `^[\w-]{11,14}$` used by both downloaders. -/
def validId (id : String) : Bool :=
  11 ≤ id.length && id.length ≤ 14 &&
    id.data.all (fun c => isWordChar c || c == '-')

/-- The part-number pattern `^[\d]+$`. -/
def validPartNum (p : String) : Bool :=
  !p.isEmpty && p.data.all isDigitChar

/-- The container allow-list `^\.(srt|ass|vtt|lrc|xml)$`. -/
def validSubExt (ext : String) : Bool :=
  ext == ".srt" || ext == ".ass" || ext == ".vtt" ||
  ext == ".lrc" || ext == ".xml"

/-- The subtitle-type pattern `^(auto|native)$`. -/
def validSubType (t : String) : Bool :=
  t == "auto" || t == "native"

/-- The format pattern `^([\w\d-]+)(?:x([\w\d-]+))?$`.  Because `x` is
itself a word character, the anchored pattern accepts exactly the
non-empty strings over `[\w-]` (the optional merge group only affects
the captures, not acceptance). -/
def validFormatSpec (format : String) : Bool :=
  !format.isEmpty && format.data.all (fun c => isWordChar c || c == '-')

/-! ## Base64 payload encoding (`Buffer.from(content).toString("base64")`) -/

/-- The base64 alphabet. -/
def base64Alphabet : List Char :=
  "ABCDEFGHIJKLMNOPQRSTUVWXYZabcdefghijklmnopqrstuvwxyz0123456789+/".data

/-- The base64 digit for a 6-bit value. -/
def b64Digit (n : Nat) : Char :=
  base64Alphabet.getD n 'A'

/-- UTF-8 bytes of one character, as `Buffer.from` produces them. -/
def utf8BytesOfChar (c : Char) : List Nat :=
  let n := c.toNat
  if n < 128 then [n]
  else if n < 2048 then [192 + n / 64, 128 + n % 64]
  else if n < 65536 then [224 + n / 4096, 128 + n / 64 % 64, 128 + n % 64]
  else [240 + n / 262144, 128 + n / 4096 % 64, 128 + n / 64 % 64, 128 + n % 64]

/-- Base64 digits of a byte list, with padding. -/
def b64Groups : List Nat → List Char
  | [] => []
  | [a] => [b64Digit (a / 4), b64Digit (a % 4 * 16), '=', '=']
  | [a, b] => [b64Digit (a / 4), b64Digit (a % 4 * 16 + b / 16), b64Digit (b % 16 * 4), '=']
  | a :: b :: c :: rest =>
    b64Digit (a / 4) :: b64Digit (a % 4 * 16 + b / 16) ::
      b64Digit (b % 16 * 4 + c / 64) :: b64Digit (c % 64) :: b64Groups rest

/-- `Buffer.from(s).toString("base64")`. -/
def base64Encode (s : String) : String :=
  String.mk (b64Groups (s.data.flatMap utf8BytesOfChar))

/-! ## Subtitle downloader (subtitleDownloader.js, `downloadSubtitle`) -/

/-- Observable side effects of a `downloadSubtitle` call, in order:
directory creation, an extraction-tool invocation, a transcoding-tool
invocation. -/
inductive SubEffect where
  | mkdir (path : String)
  | execTool (cmd : String)
  | execConvert (cmd : String)
deriving Repr, DecidableEq

/-- Environment oracle for `downloadSubtitle`: whether the cookie file
exists, the outcome of the extraction-tool invocation (`Except` error
message for a throw), the outcome of the transcoding-tool invocation,
the readable files (`readFile path` is `Except` the thrown message), and
the title parsed from a readable metadata sidecar (`none` when the read
or the JSON parse throws, `some` the `title` field otherwise). -/
structure SubEnv where
  cookieExists : Bool
  ytdlp : Except String Unit
  ffmpegOk : Bool
  readFile : String → Except String String
  readInfoTitle : String → Option String

/-- Arguments of `downloadSubtitle`; the route default `website = "y2b"`
is already applied, and absent optional strings are modelled by `none`
(for `p`) or the empty string (both are falsy wherever the code tests
them). -/
structure SubArgs where
  website : String
  id : String
  p : Option String
  locale : String
  ext : String
  type : String
deriving Repr, DecidableEq

/-- The two return shapes of `downloadSubtitle`:
`{success: true, title, filename, text}` and
`{success: false, error}`. -/
inductive SubResult where
  | ok (title filename text : String)
  | err (message : String)
deriving Repr, DecidableEq

/-- Shared tail of `downloadSubtitle` (lines 128 to 145): read the
metadata sidecar for the title with the identifier as fallback, read the
converted subtitle file, and answer with the encoded payload; a failing
content read is caught by the outer handler. -/
def finishSub (env : SubEnv) (a : SubArgs) (convertedFile infoFile : String)
    (effs : List SubEffect) : SubResult × List SubEffect :=
  let title :=
    match env.readInfoTitle infoFile with
    | some t => if t == "" then a.id else t
    | none => a.id
  match env.readFile convertedFile with
  | .error msg => (.err msg, effs)
  | .ok content =>
    (.ok title (title ++ "." ++ a.locale ++ a.ext) (base64Encode content), effs)

/-- `downloadSubtitle` from subtitleDownloader.js, returning the result
together with the trace of directory creations and tool invocations. -/
def downloadSubtitle (env : SubEnv) (a : SubArgs) : SubResult × List SubEffect :=
  if a.id == "" || a.locale == "" || a.ext == "" || a.type == "" then
    (.err "Missing required parameters", [])
  else if !validId a.id then
    (.err "Invalid video ID format", [])
  else if !validSubExt a.ext then
    (.err "Invalid subtitle extension", [])
  else if !validSubType a.type then
    (.err "Invalid subtitle type", [])
  else if jsTruthyStr a.p && !validPartNum (a.p.getD "") then
    (.err "Invalid part number", [])
  else
    let fullpath := joinPath tmpDir
      (a.id ++ (if jsTruthyStr a.p then "/p" ++ a.p.getD "" else ""))
    let url := getWebsiteUrl a.website a.id a.p
    let cookieParam := if env.cookieExists then "--cookies " ++ cookiePath else ""
    let subFlag := if a.type == "native" then "--write-sub" else "--write-auto-sub"
    let cmd := "yt-dlp --sub-lang " ++ sq a.locale ++ " -o " ++
      sq (fullpath ++ "/%(id)s.%(ext)s") ++ " " ++ subFlag ++
      " --skip-download --write-info-json " ++ url ++ " " ++ cookieParam
    let eff0 := [SubEffect.mkdir fullpath, SubEffect.execTool cmd]
    match env.ytdlp with
    | .error msg => (.err msg, eff0)
    | .ok _ =>
      let before := fullpath ++ "/" ++ a.id ++
        (if jsTruthyStr a.p then "_p" ++ a.p.getD "" else "")
      let originalExt :=
        if a.locale == "danmaku" then "xml"
        else if a.website == "y2b" then "vtt"
        else "srt"
      let subtitleFile := before ++ "." ++ a.locale ++ "." ++ originalExt
      let convertedFile := before ++ "." ++ a.locale ++ a.ext
      let infoFile := before ++ ".info.json"
      if subtitleFile != convertedFile then
        let convertCmd := "ffmpeg -i " ++ sq subtitleFile ++ " " ++
          sq convertedFile ++ " -y"
        let eff1 := eff0 ++ [SubEffect.execConvert convertCmd]
        if env.ffmpegOk then
          finishSub env a convertedFile infoFile eff1
        else
          match env.readFile subtitleFile with
          | .error msg => (.err msg, eff1)
          | .ok content =>
            (.ok a.id (a.id ++ "." ++ a.locale ++ originalExt)
              (base64Encode content), eff1)
      else
        finishSub env a convertedFile infoFile eff0

/-! ## Video downloader (videoDownloader.js, `downloadVideo` and
`getDownloadStatus`)

The filesystem is modelled as the list of directories that exist under
the temporary-storage root; `mkdirSync` appends and `existsSync` is
membership. -/

/-- Observable side effects of a `downloadVideo` call. -/
inductive VidEffect where
  | mkdir (path : String)
  | execTool (cmd : String)
deriving Repr, DecidableEq

/-- Environment oracle for `downloadVideo`: cookie-file existence and
the extraction-tool outcome (captured stdout on success, the
`error.toString()` text on a throw). -/
structure VidEnv where
  cookieExists : Bool
  ytdlp : Except String String

/-- Arguments of `downloadVideo` with the declared defaults applied
(`website = "y2b"`, `merge = false`); `subs` is destructured by the
code but never used. -/
structure VidArgs where
  website : String
  videoID : String
  p : Option String
  format : String
  recode : Option String
  subs : Option String
  merge : Bool
deriving Repr, DecidableEq

/-- The job descriptor `downloadVideo` answers with: transport-level
`success` is true in both the completed and the failed branch, and the
domain-level outcome lives in `downloadSucceed`. -/
structure DownloadResult where
  success : Bool
  v : String
  downloading : Bool
  downloadSucceed : Bool
  dest : String
  metadata : String
deriving Repr, DecidableEq

/-- JS `format.replace("x", "+")`: only the first occurrence is
replaced. -/
def replaceFirstChar (target repl : Char) : List Char → List Char
  | [] => []
  | c :: rest =>
    if c == target then repl :: rest else c :: replaceFirstChar target repl rest

/-- Rightmost capture of `(ERROR.*)$` on one line, as the greedy leading
`.*` of `^.*(ERROR.*)$` produces it. -/
def lastErrorCapture : List Char → Option String
  | [] => none
  | c :: rest =>
    match lastErrorCapture rest with
    | some s => some s
    | none =>
      if listPrefixOf "ERROR".data (c :: rest) then
        some (String.mk (c :: rest))
      else none

/-- The failure-cause scan of `downloadVideo` (lines 145 to 153): split
the error text on newlines, take the first line holding an `ERROR`
marker and surface the capture, defaulting to the unknown-cause
marker.  The JS dot matches no carriage return, so a line containing one
cannot match at all. -/
def causeOfError (errText : String) : String :=
  match (errText.splitOn "\n").findSome?
      (fun l =>
        if l.data.all (fun ch => ch != '\r') then lastErrorCapture l.data
        else none) with
  | some c => c
  | none => "Unknown cause"

/-- Rightmost capture of `(videoID\.[\w]+)` preceded by the escaped
output directory, as the greedy leading `.*` of the recovery pattern
produces it. -/
def lastDestCapture (pathPat : List Char) (vid : String) : List Char → Option String
  | [] => none
  | c :: rest =>
    match lastDestCapture pathPat vid rest with
    | some d => some d
    | none =>
      if listPrefixOf pathPat (c :: rest) then
        let run := ((c :: rest).drop pathPat.length).takeWhile isWordChar
        if run.isEmpty then none else some (vid ++ "." ++ String.mk run)
      else none

/-- The produced-filename scan of `downloadVideo` (lines 116 to 128):
the first stdout line matching
`^.*fullpath/(videoID\.[\w]+).*$` yields the captured basename,
defaulting to the unknown marker. -/
def destOfOutput (fullpath vid output : String) : String :=
  let pathPat := (fullpath ++ "/" ++ vid ++ ".").data
  match (output.splitOn "\n").findSome?
      (fun l =>
        if l.data.all (fun ch => ch != '\r') then lastDestCapture pathPat vid l.data
        else none) with
  | some d => d
  | none => "Unknown dest"

/-- The relative download path
`videoID(/pN)?/format` computed identically by `downloadVideo` (line 71)
and `getDownloadStatus` (line 176). -/
def downloadPath (videoID format : String) (p : Option String) : String :=
  videoID ++ (if jsTruthyStr p then "/p" ++ p.getD "" else "") ++ "/" ++ format

/-- The failed-download descriptor (lines 155 to 164). -/
def failDownload (vid cause : String) : DownloadResult :=
  { success := true, v := vid, downloading := false, downloadSucceed := false
    dest := "下载失败", metadata := cause }

/-- `downloadVideo` from videoDownloader.js over the directory-list
filesystem, returning the descriptor, the updated filesystem, and the
trace of directory creations and tool invocations.  A validation throw
is caught by the same handler as a tool throw; its `Error: ...` text
holds no `ERROR` marker, so the cause degrades to the unknown
marker. -/
def downloadVideo (env : VidEnv) (fs : List String) (a : VidArgs) :
    DownloadResult × List String × List VidEffect :=
  if a.videoID == "" || a.format == "" then
    (failDownload a.videoID (causeOfError "Error: Video ID and format are required"), fs, [])
  else if !validId a.videoID then
    (failDownload a.videoID (causeOfError "Error: Invalid video ID format"), fs, [])
  else if jsTruthyStr a.p && !validPartNum (a.p.getD "") then
    (failDownload a.videoID (causeOfError "Error: Invalid part number format"), fs, [])
  else if !validFormatSpec a.format then
    (failDownload a.videoID (causeOfError "Error: Invalid format specification"), fs, [])
  else
    let path := downloadPath a.videoID a.format a.p
    let fullpath := joinPath tmpDir path
    let fs1 := fs ++ [fullpath]
    let url := getWebsiteUrl a.website a.videoID a.p
    let cookieParam := if env.cookieExists then "--cookies " ++ cookiePath else ""
    let recodeParam :=
      if jsTruthyStr a.recode then "--recode " ++ a.recode.getD "" else ""
    let hasX := jsIncludes a.format "x"
    let formatParam :=
      if hasX then String.mk (replaceFirstChar 'x' '+' a.format.data) else a.format
    let mergeOutput := a.merge && hasX
    let outputTemplate :=
      if mergeOutput then fullpath ++ "/" ++ a.videoID ++ "_merged.%(ext)s"
      else fullpath ++ "/" ++ a.videoID ++ ".%(ext)s"
    let cmdBase := "yt-dlp " ++ cookieParam ++ " " ++ url ++ " -f " ++ formatParam ++
      " -o " ++ sq outputTemplate ++ " " ++ recodeParam ++ " -k --write-info-json"
    let cmd := if mergeOutput then cmdBase ++ " --merge-output-format mp4" else cmdBase
    let effs := [VidEffect.mkdir fullpath, VidEffect.execTool cmd]
    match env.ytdlp with
    | .error errText => (failDownload a.videoID (causeOfError errText), fs1, effs)
    | .ok output =>
      ({ success := true, v := a.videoID, downloading := false, downloadSucceed := true
         dest := "files/" ++ path ++ "/" ++ destOfOutput fullpath a.videoID output
         metadata := "info/" ++ path ++ "/" ++ a.videoID ++ ".info.json" },
       fs1, effs)

/-- The two return shapes of `getDownloadStatus`. -/
inductive StatusResult where
  | ok (v dest metadata : String)
  | notFound
deriving Repr, DecidableEq

/-- `getDownloadStatus(videoID, format, p)` from videoDownloader.js: a
pure existence check of the directory addressed by identity, part and
format; the `ok` shape carries `downloading = false` and
`downloadSucceed = true`. -/
def getDownloadStatus (fs : List String) (videoID format : String)
    (p : Option String) : StatusResult :=
  let path := downloadPath videoID format p
  let fullpath := joinPath tmpDir path
  if fs.contains fullpath then
    .ok videoID ("files/" ++ path) ("info/" ++ path ++ "/" ++ videoID ++ ".info.json")
  else .notFound

/-! ## Retention manager (the cleanup module of videoDownloader.js) -/

/-- A direct child of the temporary-storage root with its
last-modification time in milliseconds. -/
structure FsEntry where
  name : String
  mtime : Int
deriving Repr, DecidableEq

/-- The temporary-storage root: whether the directory currently exists
and its direct children. -/
structure TmpState where
  tmpExists : Bool
  entries : List FsEntry
deriving Repr, DecidableEq

/-- `maxAge`: 24 hours in milliseconds. -/
def cleanupMaxAge : Int := 24 * 60 * 60 * 1000

/-- `maxDiskUsage`: the utilization ceiling in percent. -/
def maxDiskUsage : Nat := 90

/-- Numeric value of a digit run, as `parseInt` reads the capture. -/
def natOfDigits (ds : List Char) : Nat :=
  ds.foldl (fun acc c => acc * 10 + (c.toNat - 48)) 0

/-- Rightmost capture of `\s(\d+)%` on one line, as the greedy leading
`.*` of `.*\s(\d+)%` produces it: a whitespace character, a maximal
digit run, then a percent sign. -/
def lastPercentCapture : List Char → Option Nat
  | [] => none
  | c :: rest =>
    match lastPercentCapture rest with
    | some v => some v
    | none =>
      if isSpaceChar c then
        let ds := rest.takeWhile isDigitChar
        if !ds.isEmpty && (rest.drop ds.length).head? == some '%' then
          some (natOfDigits ds)
        else none
      else none

/-- The loop of `checkDiskSpace`: the emergency purge fires exactly when
some line of the `df` output parses to a utilization above the ceiling
(the loop breaks after the first such line, so at most one purge
happens). -/
def purgeTriggered (dfLines : List String) : Bool :=
  dfLines.any (fun l =>
    match lastPercentCapture l.data with
    | some u => decide (u > maxDiskUsage)
    | none => false)

/-- `cleanAllFiles`: when the root exists it is removed with everything
beneath it; the recreation is scheduled asynchronously and happens only
after the whole cleanup pass finished, so the returned flag records
whether a recreation is pending. -/
def cleanAllFiles (s : TmpState) : TmpState × Bool :=
  if s.tmpExists then ({ tmpExists := false, entries := [] }, true) else (s, false)

/-- `checkDiskSpace`: `none` stands for a throwing `df` invocation,
which is only logged. -/
def checkDiskSpace (dfResult : Option (List String)) (s : TmpState) :
    TmpState × Bool :=
  match dfResult with
  | none => (s, false)
  | some lines => if purgeTriggered lines then cleanAllFiles s else (s, false)

/-- `cleanOldFiles`: nothing happens when the root is missing; otherwise
every direct child older than the maximum age is removed, where a
failing stat or removal (the `rmFails` oracle) leaves that child in
place without aborting the sweep of the remaining children. -/
def cleanOldFiles (rmFails : String → Bool) (now : Int) (s : TmpState) : TmpState :=
  if !s.tmpExists then s
  else
    { s with
      entries := s.entries.filter
        (fun e => !(decide (now - e.mtime > cleanupMaxAge) && !rmFails e.name)) }

/-- One cleanup cycle (`cleanupFiles`): the disk-pressure check, then
the age-based sweep, then the asynchronously scheduled recreation of the
root when the check purged it. -/
def cleanupFiles (dfResult : Option (List String)) (rmFails : String → Bool)
    (now : Int) (s : TmpState) : TmpState :=
  match checkDiskSpace dfResult s with
  | (s1, purged) =>
    let s2 := cleanOldFiles rmFails now s1
    if purged then { tmpExists := true, entries := s2.entries } else s2

/-! # Helper lemmas -/

/-- A conditional between two members of a list is a member. -/
theorem list_mem_ite {α : Type} {c : Prop} [Decidable c] {x y : α} {S : List α}
    (hx : x ∈ S) (hy : y ∈ S) : (if c then x else y) ∈ S := by
  by_cases hc : c <;> simp [hc, hx, hy]

/-- The format loop buckets exactly the streams with an audio track into
`audios` and the remaining streams with a video track into `videos`, in
discovery order. -/
theorem bucketFormats_eq (fs : List RawFormat) :
    bucketFormats fs =
      ((fs.filter (fun f => f.audio_ext != "none")).map mkAudioEntry,
       (fs.filter (fun f => f.audio_ext == "none" && f.video_ext != "none")).map
         mkVideoEntry) := by
  induction fs with
  | nil => rfl
  | cons f rest ih =>
    simp only [bucketFormats, ih]
    by_cases h1 : f.audio_ext = "none" <;>
      by_cases h2 : f.video_ext = "none" <;>
        simp [List.filter_cons, h1, h2]

/-- The head of a stable descending insertion keeps the larger of the
inserted element and the previous head, preferring the inserted element
on ties. -/
theorem head?_insertByKeyDesc {α : Type} (key : α → Int) (x : α) (l : List α) :
    (insertByKeyDesc key x l).head? =
      some (match l.head? with
            | none => x
            | some y => if key y ≤ key x then x else y) := by
  cases l with
  | nil => rfl
  | cons y ys => by_cases h : key y ≤ key x <;> simp [insertByKeyDesc, h]

/-- The head of the stable descending sort is the first element of the
input attaining the maximal key. -/
theorem head?_sortByKeyDesc {α : Type} (key : α → Int) (l : List α) :
    (sortByKeyDesc key l).head? = firstMaxBy key l := by
  induction l with
  | nil => rfl
  | cons x xs ih =>
    simp only [sortByKeyDesc, firstMaxBy, head?_insertByKeyDesc, ← ih]
    cases hxs : (sortByKeyDesc key xs).head? with
    | none => rfl
    | some m =>
      by_cases h : key x < key m
      · have hm : ¬ key m ≤ key x := by omega
        simp [h, hm]
      · have hm : key m ≤ key x := by omega
        simp [h, hm]

/-! # Claims -/

/-- C1, counterexample: on output holding an official-subtitles header
followed by the lines `en`, `es-419` and `danmaku`, the scanner answers
`["en", "es", "danmaku"]` rather than the claimed
`["en", "es-419", "danmaku"]`: the optional region suffix of the
language pattern only accepts letters, so the digit region of `es-419`
is dropped and the capture stops after `es`. -/
theorem C1_counterexample :
    parseSubtitles "Available subtitles for abc:\nen\nes-419\ndanmaku\n\n" =
      ["en", "es", "danmaku"] ∧
    parseSubtitles "Available subtitles for abc:\nen\nes-419\ndanmaku\n\n" ≠
      ["en", "es-419", "danmaku"] := by
  refine ⟨rfl, ?_⟩
  decide

/-- C1, amended: the subtitle scanner answers `["en", "es", "danmaku"]`
on the header followed by `en`, `es-419`, `danmaku` and a blank line
(the digit region suffix of `es-419` is truncated to `es`); it answers
`["auto"]` when only the automatic-captions marker occurs with no
official section; and `[]` when neither marker occurs. -/
theorem C1_subtitle_scanner :
    parseSubtitles "Available subtitles for abc:\nen\nes-419\ndanmaku\n\n" =
      ["en", "es", "danmaku"] ∧
    parseSubtitles "Available automatic captions for abc:\nen vtt\n" = ["auto"] ∧
    parseSubtitles "some tool banner\nno markers here" = [] :=
  ⟨rfl, rfl, rfl⟩

/-- C5: both quality classifiers always answer with a label from a fixed
finite set (they are total and never fail), and on the example inputs:
height 1080 with an empty note classifies as quality `1080p` and
standard `Full HD`, height 0 with note `4K HDR` classifies as quality
`2160p`, audio bitrate 256 classifies as `Medium (192kbps+)` and
bitrate 50 as `Unknown`. -/
theorem C5_quality_classifiers :
    (∀ h n, (mapVideoQuality h n).standard ∈
      (["4K", "2K", "Full HD", "HD", "SD", "Low", "Unknown"] : List String)) ∧
    (∀ a, mapAudioQuality a ∈
      (["High (320kbps+)", "Medium (192kbps+)", "Standard (128kbps+)",
        "Low (96kbps+)", "Unknown"] : List String)) ∧
    mapVideoQuality (some 1080) (some "") =
      ⟨"1080p", "Full HD", "1080p Full HD"⟩ ∧
    (mapVideoQuality (some 0) (some "4K HDR")).quality = "2160p" ∧
    mapAudioQuality (some 256) = "Medium (192kbps+)" ∧
    mapAudioQuality (some 50) = "Unknown" := by
  refine ⟨?_, ?_, rfl, rfl, rfl, rfl⟩
  · intro h n
    simp only [mapVideoQuality, apply_ite QualityInfo.standard]
    repeat' apply list_mem_ite
    all_goals simp
  · intro a
    simp only [mapAudioQuality]
    repeat' apply list_mem_ite
    all_goals simp

/-- A storyboard-style stream entry: the tool reports it with neither an
audio track nor a video track. -/
def storyboardFormat : RawFormat :=
  { format_id := "sb0"
    ext := "mhtml"
    audio_ext := "none"
    video_ext := "none"
    abr := none
    vbr := none
    height := none
    resolution := "48x27"
    format_note := some "storyboard"
    format := some "sb0 - 48x27"
    filesize := none
    filesize_approx := none }

/-- An audio stream reported with the fractional bitrate 128.6. -/
def loRateFormat : RawFormat :=
  { format_id := "a1"
    ext := "m4a"
    audio_ext := "m4a"
    video_ext := "none"
    abr := some (643 / 5)
    vbr := none
    height := none
    resolution := "audio only"
    format_note := some "medium"
    format := none
    filesize := some 100
    filesize_approx := none }

/-- The same audio stream with the higher fractional bitrate 129.4. -/
def hiRateFormat : RawFormat :=
  { loRateFormat with format_id := "a2", abr := some (647 / 5) }

/-- C3, counterexample, in two parts.  Bucketing: the claim sorts every
stream without an audio codec into the video set, but a stream whose
audio and video track fields are both `none` is pushed onto neither
array, so the video set of the one-element format list is empty.
Best-selection: the claim picks the entry with the highest reported
audio bitrate, but the sort compares the `toFixed(0)` rounding of the
bitrate, so the raw bitrates 128.6 and 129.4 both round to 129, tie,
and the first-seen entry `a1` wins even though `a2` reports the higher
bitrate. -/
theorem C3_counterexample :
    (storyboardFormat.audio_ext = "none" ∧
      bucketFormats [storyboardFormat] = ([], [])) ∧
    (loRateFormat.abr.getD 0 < hiRateFormat.abr.getD 0 ∧
      jsToFixed0 (loRateFormat.abr.getD 0) = jsToFixed0 (hiRateFormat.abr.getD 0) ∧
      (processFormats [loRateFormat, hiRateFormat]).2.2.1.map (fun a => a.id) =
        some "a1") := by
  have hfloor : ∀ q : ℚ, q.floor = ⌊q⌋ := fun q => rfl
  have hlo : jsToFixed0 (643 / 5 : ℚ) = 129 := by
    rw [jsToFixed0, hfloor, Int.floor_eq_iff]
    norm_num
  have hhi : jsToFixed0 (647 / 5 : ℚ) = 129 := by
    rw [jsToFixed0, hfloor, Int.floor_eq_iff]
    norm_num
  refine ⟨⟨rfl, rfl⟩, ?_, ?_, ?_⟩
  · show (643 / 5 : ℚ) < 647 / 5
    norm_num
  · show jsToFixed0 (643 / 5 : ℚ) = jsToFixed0 (647 / 5 : ℚ)
    rw [hlo, hhi]
  · have hbest : (processFormats [loRateFormat, hiRateFormat]).2.2.1 =
        firstMaxBy (fun a => a.rate)
          (bucketFormats [loRateFormat, hiRateFormat]).1 := by
      rcases hb : bucketFormats [loRateFormat, hiRateFormat] with ⟨as, vs⟩
      simp [processFormats, hb, head?_sortByKeyDesc]
    have has : (bucketFormats [loRateFormat, hiRateFormat]).1 =
        [mkAudioEntry loRateFormat, mkAudioEntry hiRateFormat] := rfl
    have hr1 : (mkAudioEntry loRateFormat).rate = 129 := hlo
    have hr2 : (mkAudioEntry hiRateFormat).rate = 129 := hhi
    rw [hbest, has]
    simp [firstMaxBy, hr1, hr2]
    rfl

/-- C3, amended: the format loop buckets a stream into the audio set
when its `audio_ext` track field is not `none`, into the video set when
`audio_ext` is `none` and its `video_ext` track field is not `none`,
and drops streams with neither track (the decision reads the two track
fields, not the container extension); every entry stores as its rate
the `toFixed(0)` rounding of `abr || 0` (respectively `vbr || 0`), and
best-audio and best-video are the first-seen entries attaining the
highest rounded audio and video bitrates respectively — distinct raw
bitrates that round equal tie, and the tie keeps the first-seen
entry. -/
theorem C3_format_buckets_and_best (fs : List RawFormat) :
    (bucketFormats fs).1 =
      (fs.filter (fun f => f.audio_ext != "none")).map mkAudioEntry ∧
    (bucketFormats fs).2 =
      (fs.filter (fun f => f.audio_ext == "none" && f.video_ext != "none")).map
        mkVideoEntry ∧
    (∀ f, (mkAudioEntry f).rate = jsToFixed0 (f.abr.getD 0)) ∧
    (∀ f, (mkVideoEntry f).rate = jsToFixed0 (f.vbr.getD 0)) ∧
    (processFormats fs).2.2.1 = firstMaxBy (fun a => a.rate) (bucketFormats fs).1 ∧
    (processFormats fs).2.2.2 = firstMaxBy (fun v => v.rate) (bucketFormats fs).2 := by
  refine ⟨?_, ?_, fun f => rfl, fun f => rfl, ?_, ?_⟩
  · rw [bucketFormats_eq]
  · rw [bucketFormats_eq]
  · rcases hb : bucketFormats fs with ⟨as, vs⟩
    simp [processFormats, hb, head?_sortByKeyDesc]
  · rcases hb : bucketFormats fs with ⟨as, vs⟩
    simp [processFormats, hb, head?_sortByKeyDesc]

/-- On a failing first invocation with platform Bilibili and no part
present, the extraction performs exactly the retry with `p=1`
appended, and its result is determined by the retried call. -/
theorem runExtraction_noPart_fail (extract : String → Option ToolJson)
    (url : String) (hfail : extract url = none) :
    (runExtraction extract "bilibili" url none).2 = [url, retryUrlOf url] ∧
    (∀ j, extract (retryUrlOf url) = some j →
      (runExtraction extract "bilibili" url none).1 =
        some (j, some "1", retryUrlOf url)) ∧
    (extract (retryUrlOf url) = none →
      (runExtraction extract "bilibili" url none).1 = none) := by
  have hcond : (("bilibili" == "bilibili") && !jsTruthyStr (none : Option String)) = true := by
    decide
  refine ⟨?_, ?_, ?_⟩
  · simp only [runExtraction, hfail, hcond]
    cases hr : extract (retryUrlOf url) <;> simp
  · intro j hr
    simp only [runExtraction, hfail, hcond, hr]
    simp
  · intro hr
    simp only [runExtraction, hfail, hcond, hr]
    simp

/-- C2: for a URL that classifies as Bilibili with no part parameter,
when the first tool invocation fails the extraction invokes the tool
exactly on the original URL and then once more on the URL with `p=1`
appended; a successful retry produces the output of the retried call
with part forced to `"1"`, and the full parse then answers a result
carrying part `"1"`; a failing retry is terminal; and an invocation
failure for a non-Bilibili platform or with a part already present
performs no retry at all. -/
theorem C2_bilibili_retry (extract : String → Option ToolJson) (url vid : String)
    (hres : resolveBilibili url = some (vid, none))
    (hfail : extract url = none) :
    (runExtraction extract "bilibili" url none).2 = [url, retryUrlOf url] ∧
    (∀ j, extract (retryUrlOf url) = some j →
      (runExtraction extract "bilibili" url none).1 =
        some (j, some "1", retryUrlOf url)) ∧
    (extract (retryUrlOf url) = none →
      (runExtraction extract "bilibili" url none).1 = none) ∧
    (∀ j listSubs, extract (retryUrlOf url) = some j →
      ∃ r, parseVideoBili extract listSubs url = some r ∧
        r.p = some "1" ∧ r.v = vid) ∧
    (∀ website p, (website = "bilibili" → jsTruthyStr p = true) →
      runExtraction extract website url p = (none, [url])) := by
  obtain ⟨htrace, hsome, hnone⟩ := runExtraction_noPart_fail extract url hfail
  refine ⟨htrace, hsome, hnone, ?_, ?_⟩
  · intro j listSubs hr
    have hx := hsome j hr
    simp only [parseVideoBili, hres, hx]
    rcases hpf : processFormats (j.formats.getD []) with ⟨sortedAs, sortedVs, bA, bV⟩
    exact ⟨_, rfl, rfl, rfl⟩
  · intro website p himp
    by_cases hw : website = "bilibili"
    · have hp := himp hw
      simp only [runExtraction, hfail, hw, hp]
      simp
    · have hw2 : (website == "bilibili") = false := by
        simpa using hw
      simp only [runExtraction, hfail, hw2]
      simp

/-- Demonstration Bilibili URL without a part parameter. -/
def bUrl : String := "https://www.bilibili.com/video/BV1xx411c7mD"

/-- Minimal structured tool output used by the demonstrations. -/
def sampleToolJson : ToolJson :=
  { title := "demo"
    thumbnail := "thumb"
    duration := 10
    uploader := "up"
    view_count := 3
    upload_date := "20240101"
    description := some "d"
    formats := some [] }

/-- Extraction oracle that fails on the original URL and succeeds on the
retried one. -/
def bExtract : String → Option ToolJson :=
  fun u => if u == retryUrlOf bUrl then some sampleToolJson else none

/-- Witness for C2 at the demonstration URL and oracle. -/
theorem C2_witness :
    resolveBilibili bUrl = some ("BV1xx411c7mD", none) ∧
    bExtract bUrl = none ∧
    (runExtraction bExtract "bilibili" bUrl none).2 = [bUrl, retryUrlOf bUrl] ∧
    (runExtraction bExtract "bilibili" bUrl none).1 =
      some (sampleToolJson, some "1", retryUrlOf bUrl) := by
  have h := C2_bilibili_retry bExtract bUrl "BV1xx411c7mD" (by decide) (by decide)
  exact ⟨by decide, by decide, h.1, h.2.1 sampleToolJson (by decide)⟩

/-- Listing oracle that answers an official `en` subtitle for the
original demonstration URL and a markerless banner for every other
URL. -/
def c4ListSubs : String → Option String :=
  fun u =>
    if u == bUrl then some "Available subtitles for X:\nen\n\n"
    else some "no markers"

/-- C4, counterexample: the parse of the demonstration URL succeeds only
through the `p=1` retry, the listing oracle would report the official
subtitle `en` for the original caller-supplied URL, yet the parse
result carries the empty subtitle list, because line 154 of
videoParser.js overwrites `url` with the retried URL before
`parseSubtitles(url)` runs. -/
theorem C4_counterexample :
    (parseVideoBili bExtract c4ListSubs bUrl).map (fun r => r.subs) = some [] ∧
    parseSubtitlesFrom (c4ListSubs bUrl) = ["en"] := by
  refine ⟨?_, rfl⟩
  rfl

/-- C4, amended: when the parse succeeds only via the Bilibili `p=1`
retry, the subtitle listing is invoked with the retried URL (the one
with `p=1` appended), not the original caller-supplied URL; a failure
of the listing invocation still degrades to an empty subtitle list
inside a successful parse result. -/
theorem C4_subtitle_url_after_retry (extract : String → Option ToolJson)
    (listSubs : String → Option String) (url vid : String) (j : ToolJson)
    (hres : resolveBilibili url = some (vid, none))
    (hfail : extract url = none)
    (hretry : extract (retryUrlOf url) = some j) :
    ∃ r, parseVideoBili extract listSubs url = some r ∧
      r.subs = parseSubtitlesFrom (listSubs (retryUrlOf url)) ∧
      (listSubs (retryUrlOf url) = none → r.subs = []) := by
  have hx : (runExtraction extract "bilibili" url none).1 =
      some (j, some "1", retryUrlOf url) :=
    (runExtraction_noPart_fail extract url hfail).2.1 j hretry
  simp only [parseVideoBili, hres, hx]
  rcases hpf : processFormats (j.formats.getD []) with ⟨sortedAs, sortedVs, bA, bV⟩
  refine ⟨_, rfl, rfl, ?_⟩
  intro hnone
  simp [parseSubtitlesFrom, hnone]

/-- Witness for C4 at the demonstration URL and oracles. -/
theorem C4_witness :
    resolveBilibili bUrl = some ("BV1xx411c7mD", none) ∧
    bExtract bUrl = none ∧
    bExtract (retryUrlOf bUrl) = some sampleToolJson ∧
    ∃ r, parseVideoBili bExtract c4ListSubs bUrl = some r ∧
      r.subs = parseSubtitlesFrom (c4ListSubs (retryUrlOf bUrl)) ∧
      (c4ListSubs (retryUrlOf bUrl) = none → r.subs = []) :=
  ⟨by decide, by decide, by decide,
    C4_subtitle_url_after_retry bExtract c4ListSubs bUrl "BV1xx411c7mD"
      sampleToolJson (by decide) (by decide) (by decide)⟩

/-- Does an effect invoke the transcoding tool? -/
def isConvertEffect : SubEffect → Bool
  | .execConvert _ => true
  | _ => false

/-- Does an effect invoke the extraction tool? -/
def isToolEffect : SubEffect → Bool
  | .execTool _ => true
  | _ => false

/-- Does an effect create a directory? -/
def isMkdirEffect : SubEffect → Bool
  | .mkdir _ => true
  | _ => false

/-- Environment for the C6 demonstration: the extraction succeeds, the
transcoding tool fails, and only the native `vtt` file is readable. -/
def c6Env : SubEnv :=
  { cookieExists := false
    ytdlp := .ok ()
    ffmpegOk := false
    readFile := fun path =>
      if path == "tmp/dQw4w9WgXcQ/dQw4w9WgXcQ.en.vtt" then .ok "WEBVTT demo"
      else .error "ENOENT"
    readInfoTitle := fun _ => some "Demo Title" }

/-- A YouTube subtitle request for the native `vtt` container. -/
def c6ArgsVtt : SubArgs :=
  { website := "y2b", id := "dQw4w9WgXcQ", p := none, locale := "en"
    ext := ".vtt", type := "native" }

/-- The same request asking for the `srt` container. -/
def c6ArgsSrt : SubArgs :=
  { c6ArgsVtt with ext := ".srt" }

/-- C6, evaluation at the failing input: requesting the native `vtt`
container never invokes the transcoding tool; requesting `srt` does
invoke it, and when it fails the call still succeeds with the content
of the untranscoded native file — but the reported filename is
`dQw4w9WgXcQ.envtt`: line 122 of subtitleDownloader.js concatenates the
native extension without the separating dot (the success path at line
143 appends a desired container that carries its own leading dot, and
the fallback reuses that pattern with the dotless native extension), so
the filename of the native file, `dQw4w9WgXcQ.en.vtt`, is not what the
caller receives. -/
theorem C6_fallback_evaluation :
    (downloadSubtitle c6Env c6ArgsVtt).2.any isConvertEffect = false ∧
    (downloadSubtitle c6Env c6ArgsVtt).1 =
      .ok "Demo Title" "Demo Title.en.vtt" (base64Encode "WEBVTT demo") ∧
    (downloadSubtitle c6Env c6ArgsSrt).2.any isConvertEffect = true ∧
    (downloadSubtitle c6Env c6ArgsSrt).1 =
      .ok "dQw4w9WgXcQ" "dQw4w9WgXcQ.envtt" (base64Encode "WEBVTT demo") ∧
    "dQw4w9WgXcQ.envtt" ≠ "dQw4w9WgXcQ.en.vtt" := by
  refine ⟨rfl, rfl, rfl, rfl, by decide⟩

/-- Environment for the C7 demonstration: every tool call would
succeed. -/
def c7Env : SubEnv :=
  { cookieExists := false
    ytdlp := .ok ()
    ffmpegOk := true
    readFile := fun _ => .error "ENOENT"
    readInfoTitle := fun _ => none }

/-- A subtitle request that is well formed except for the locale
`123`. -/
def c7LocaleArgs : SubArgs :=
  { website := "y2b", id := "dQw4w9WgXcQ", p := none, locale := "123"
    ext := ".vtt", type := "native" }

/-- C7, counterexample: `downloadSubtitle` performs no validation of the
locale at all, so a request whose only malformed field is
`locale = "123"` is not rejected: the call creates the job directory
and spawns the extraction tool with the malformed locale spliced into
the command line (the locale pattern lives only in the HTTP validation
middleware, which the spec excludes from the core). -/
theorem C7_counterexample :
    validId "dQw4w9WgXcQ" = true ∧ validSubExt ".vtt" = true ∧
    validSubType "native" = true ∧
    (downloadSubtitle c7Env c7LocaleArgs).2.any isMkdirEffect = true ∧
    (downloadSubtitle c7Env c7LocaleArgs).2.any isToolEffect = true := by
  refine ⟨by decide, by decide, by decide, rfl, rfl⟩

/-- C7, amended: a malformed video identifier, format specification,
container extension, subtitle type or part number is rejected by the
local pre-flight validation of `downloadVideo` and `downloadSubtitle`
with a failure result, before any directory is created or any
subprocess is spawned; the locale is not validated by these
functions. -/
theorem C7_local_validation :
    (∀ env fs a,
      (validId a.videoID = false ∨ validFormatSpec a.format = false ∨
        (jsTruthyStr a.p = true ∧ validPartNum (a.p.getD "") = false)) →
      (downloadVideo env fs a).2.2 = [] ∧
      (downloadVideo env fs a).2.1 = fs ∧
      (downloadVideo env fs a).1.downloadSucceed = false) ∧
    (∀ env a,
      (validId a.id = false ∨ validSubExt a.ext = false ∨
        validSubType a.type = false ∨
        (jsTruthyStr a.p = true ∧ validPartNum (a.p.getD "") = false)) →
      (downloadSubtitle env a).2 = [] ∧
      ∃ m, (downloadSubtitle env a).1 = .err m) := by
  constructor
  · rintro env fs a h
    by_cases h0 : (a.videoID == "" || a.format == "") = true
    · simp [downloadVideo, h0, failDownload]
    · rw [Bool.not_eq_true] at h0
      by_cases h1 : validId a.videoID = true
      · by_cases h2 : (jsTruthyStr a.p && !validPartNum (a.p.getD "")) = true
        · simp [downloadVideo, h0, h1, h2, failDownload]
        · rw [Bool.not_eq_true] at h2
          have hf : validFormatSpec a.format = false := by
            rcases h with h | h | ⟨hp, hq⟩
            · rw [h1] at h
              exact absurd h (by simp)
            · exact h
            · rw [hp, hq] at h2
              exact absurd h2 (by simp)
          simp [downloadVideo, h0, h1, h2, hf, failDownload]
      · rw [Bool.not_eq_true] at h1
        simp [downloadVideo, h0, h1, failDownload]
  · rintro env a h
    by_cases h0 :
        (a.id == "" || a.locale == "" || a.ext == "" || a.type == "") = true
    · simp [downloadSubtitle, h0]
    · rw [Bool.not_eq_true] at h0
      by_cases h1 : validId a.id = true
      · by_cases h2 : validSubExt a.ext = true
        · by_cases h3 : validSubType a.type = true
          · by_cases h4 : (jsTruthyStr a.p && !validPartNum (a.p.getD "")) = true
            · simp [downloadSubtitle, h0, h1, h2, h3, h4]
            · exfalso
              rw [Bool.not_eq_true] at h4
              rcases h with h | h | h | ⟨hp, hq⟩
              · rw [h1] at h
                exact absurd h (by simp)
              · rw [h2] at h
                exact absurd h (by simp)
              · rw [h3] at h
                exact absurd h (by simp)
              · rw [hp, hq] at h4
                exact absurd h4 (by simp)
          · rw [Bool.not_eq_true] at h3
            simp [downloadSubtitle, h0, h1, h2, h3]
        · rw [Bool.not_eq_true] at h2
          simp [downloadSubtitle, h0, h1, h2]
      · rw [Bool.not_eq_true] at h1
        simp [downloadSubtitle, h0, h1]

/-- Environment for the C7 witness on the video side. -/
def c7VidEnv : VidEnv :=
  { cookieExists := false, ytdlp := .error "boom" }

/-- A video request with the malformed identifier `short`. -/
def c7BadVidArgs : VidArgs :=
  { website := "y2b", videoID := "short", p := none, format := "best"
    recode := none, subs := none, merge := false }

/-- A subtitle request with the malformed container `.exe`. -/
def c7BadSubArgs : SubArgs :=
  { website := "y2b", id := "dQw4w9WgXcQ", p := none, locale := "en"
    ext := ".exe", type := "native" }

/-- Witness for C7 at the malformed identifier `short` and the
malformed container `.exe`. -/
theorem C7_witness :
    validId "short" = false ∧ validSubExt ".exe" = false ∧
    (downloadVideo c7VidEnv [] c7BadVidArgs).2.2 = [] ∧
    (downloadVideo c7VidEnv [] c7BadVidArgs).2.1 = [] ∧
    (downloadVideo c7VidEnv [] c7BadVidArgs).1.downloadSucceed = false ∧
    (downloadSubtitle c7Env c7BadSubArgs).2 = [] ∧
    ∃ m, (downloadSubtitle c7Env c7BadSubArgs).1 = .err m := by
  have hv := C7_local_validation.1 c7VidEnv [] c7BadVidArgs (Or.inl (by decide))
  have hs := C7_local_validation.2 c7Env c7BadSubArgs (Or.inr (Or.inl (by decide)))
  exact ⟨by decide, by decide, hv.1, hv.2.1, hv.2.2, hs.1, hs.2⟩

/-- C8: in a cleanup cycle whose disk-utilization reading exceeds the
ceiling, the whole temporary-storage tree is purged and recreated empty
no matter what the sweep parameters are, and the age-based sweep of
that cycle is a no-op: it runs against the already removed root and
changes nothing. -/
theorem C8_disk_pressure (dfLines : List String) (rmFails : String → Bool)
    (now : Int) (s : TmpState)
    (hex : s.tmpExists = true) (htrig : purgeTriggered dfLines = true) :
    cleanupFiles (some dfLines) rmFails now s =
      { tmpExists := true, entries := [] } ∧
    cleanOldFiles rmFails now (checkDiskSpace (some dfLines) s).1 =
      (checkDiskSpace (some dfLines) s).1 := by
  have hcheck : checkDiskSpace (some dfLines) s =
      ({ tmpExists := false, entries := [] }, true) := by
    simp [checkDiskSpace, htrig, cleanAllFiles, hex]
  constructor
  · simp [cleanupFiles, hcheck, cleanOldFiles]
  · rw [hcheck]
    simp [cleanOldFiles]

/-- Witness for C8: a 95 percent reading purges a tree whose only entry
is younger than the maximum age. -/
theorem C8_witness :
    purgeTriggered ["/dev/root 95% /"] = true ∧
    cleanupFiles (some ["/dev/root 95% /"]) (fun _ => false) 0
      { tmpExists := true, entries := [⟨"fresh", 0⟩] } =
      { tmpExists := true, entries := [] } :=
  ⟨by decide,
    (C8_disk_pressure ["/dev/root 95% /"] (fun _ => false) 0
      { tmpExists := true, entries := [⟨"fresh", 0⟩] } rfl (by decide)).1⟩

/-- C9: in a cycle without disk pressure the cleanup is exactly the
age-based sweep; with no removal errors the sweep keeps exactly the
direct children whose age does not exceed the maximum age; every
younger child survives any sweep; and an old child whose removal does
not fail is removed even when removing other children fails. -/
theorem C9_age_sweep (dfLines : List String) (rmFails : String → Bool)
    (now : Int) (s : TmpState)
    (hex : s.tmpExists = true) (hno : purgeTriggered dfLines = false) :
    cleanupFiles (some dfLines) rmFails now s = cleanOldFiles rmFails now s ∧
    ((∀ e ∈ s.entries, rmFails e.name = false) →
      (cleanOldFiles rmFails now s).entries =
        s.entries.filter (fun e => decide (now - e.mtime ≤ cleanupMaxAge))) ∧
    (∀ e ∈ s.entries, now - e.mtime ≤ cleanupMaxAge →
      e ∈ (cleanOldFiles rmFails now s).entries) ∧
    (∀ e ∈ s.entries, rmFails e.name = false → now - e.mtime > cleanupMaxAge →
      e ∉ (cleanOldFiles rmFails now s).entries) := by
  refine ⟨?_, ?_, ?_, ?_⟩
  · simp [cleanupFiles, checkDiskSpace, hno]
  · intro hfail
    simp only [cleanOldFiles, hex, Bool.not_true, Bool.false_eq_true, if_false]
    refine List.filter_congr ?_
    intro e he
    rw [hfail e he]
    by_cases hc : now - e.mtime ≤ cleanupMaxAge
    · simp [hc, show ¬(now - e.mtime > cleanupMaxAge) by omega]
    · simp [hc, show now - e.mtime > cleanupMaxAge by omega]
  · intro e he hyoung
    simp only [cleanOldFiles, hex, Bool.not_true, Bool.false_eq_true, if_false]
    simp [List.mem_filter, he, show ¬(now - e.mtime > cleanupMaxAge) by omega]
  · intro e he hok hold
    simp only [cleanOldFiles, hex, Bool.not_true, Bool.false_eq_true, if_false]
    simp [List.mem_filter, hok, hold]

/-- Removal-failure oracle of the C9 witness: only the entry named
`locked` fails to be removed. -/
def c9Fails : String → Bool := fun n => n == "locked"

/-- Tree of the C9 witness: one young entry, one old entry, and one old
entry whose removal fails. -/
def c9State : TmpState :=
  { tmpExists := true
    entries := [⟨"young", 90000000⟩, ⟨"old", 0⟩, ⟨"locked", 1⟩] }

/-- Witness for C9: without disk pressure the sweep keeps the young
entry and the failing entry and removes the old one. -/
theorem C9_witness :
    purgeTriggered ["/dev/root 50% /"] = false ∧
    cleanupFiles (some ["/dev/root 50% /"]) c9Fails 100000000 c9State =
      cleanOldFiles c9Fails 100000000 c9State ∧
    (⟨"young", 90000000⟩ : FsEntry) ∈
      (cleanOldFiles c9Fails 100000000 c9State).entries ∧
    (⟨"old", 0⟩ : FsEntry) ∉
      (cleanOldFiles c9Fails 100000000 c9State).entries := by
  have h := C9_age_sweep ["/dev/root 50% /"] c9Fails 100000000 c9State rfl (by decide)
  exact ⟨by decide, h.1,
    h.2.2.1 ⟨"young", 90000000⟩ (by decide) (by decide),
    h.2.2.2 ⟨"old", 0⟩ (by decide) (by decide) (by decide)⟩

/-- C10: `getDownloadStatus` answers the success shape (with
`downloadSucceed` true) exactly when the addressed directory exists;
`downloadVideo` on validated input creates that directory before it
invokes the tool; and therefore a status check after any validated
`downloadVideo` call, with any tool outcome including a failing one,
reports the download as existing and succeeded. -/
theorem C10_status_after_download (env : VidEnv) (fs : List String) (a : VidArgs)
    (hid : validId a.videoID = true)
    (hfmt : validFormatSpec a.format = true)
    (hp : jsTruthyStr a.p = true → validPartNum (a.p.getD "") = true) :
    (∃ cmd, (downloadVideo env fs a).2.2 =
      [VidEffect.mkdir (joinPath tmpDir (downloadPath a.videoID a.format a.p)),
       VidEffect.execTool cmd]) ∧
    (downloadVideo env fs a).2.1 =
      fs ++ [joinPath tmpDir (downloadPath a.videoID a.format a.p)] ∧
    (∀ fs2 : List String,
      getDownloadStatus fs2 a.videoID a.format a.p =
        if fs2.contains (joinPath tmpDir (downloadPath a.videoID a.format a.p)) then
          .ok a.videoID ("files/" ++ downloadPath a.videoID a.format a.p)
            ("info/" ++ downloadPath a.videoID a.format a.p ++ "/" ++
              a.videoID ++ ".info.json")
        else .notFound) ∧
    getDownloadStatus (downloadVideo env fs a).2.1 a.videoID a.format a.p =
      .ok a.videoID ("files/" ++ downloadPath a.videoID a.format a.p)
        ("info/" ++ downloadPath a.videoID a.format a.p ++ "/" ++
          a.videoID ++ ".info.json") := by
  have hvne : (a.videoID == "") = false := by
    rcases Bool.eq_false_or_eq_true (a.videoID == "") with h | h
    · rw [eq_of_beq h] at hid
      exact absurd hid (by decide)
    · exact h
  have hfne : (a.format == "") = false := by
    rcases Bool.eq_false_or_eq_true (a.format == "") with h | h
    · rw [eq_of_beq h] at hfmt
      exact absurd hfmt (by decide)
    · exact h
  have h0 : (a.videoID == "" || a.format == "") = false := by
    simp [hvne, hfne]
  have h2 : (jsTruthyStr a.p && !validPartNum (a.p.getD "")) = false := by
    cases ht : jsTruthyStr a.p
    · simp
    · simp [hp ht]
  have hmain : (downloadVideo env fs a).2.1 =
      fs ++ [joinPath tmpDir (downloadPath a.videoID a.format a.p)] ∧
      ∃ cmd, (downloadVideo env fs a).2.2 =
        [VidEffect.mkdir (joinPath tmpDir (downloadPath a.videoID a.format a.p)),
         VidEffect.execTool cmd] := by
    simp only [downloadVideo, h0, hid, h2, hfmt]
    cases henv : env.ytdlp <;> simp
  have hstat : ∀ fs2 : List String,
      getDownloadStatus fs2 a.videoID a.format a.p =
        if fs2.contains (joinPath tmpDir (downloadPath a.videoID a.format a.p)) then
          .ok a.videoID ("files/" ++ downloadPath a.videoID a.format a.p)
            ("info/" ++ downloadPath a.videoID a.format a.p ++ "/" ++
              a.videoID ++ ".info.json")
        else .notFound := by
    intro fs2
    rfl
  refine ⟨hmain.2, hmain.1, hstat, ?_⟩
  rw [hmain.1, hstat]
  have hmem : (fs ++ [joinPath tmpDir (downloadPath a.videoID a.format a.p)]).contains
      (joinPath tmpDir (downloadPath a.videoID a.format a.p)) = true := by
    simp
  rw [hmem]
  simp

/-- Arguments of the C10 witness: a validated merge download. -/
def c10Args : VidArgs :=
  { website := "y2b", videoID := "dQw4w9WgXcQ", p := none, format := "137x140"
    recode := none, subs := none, merge := true }

/-- Witness for C10: after a validated download whose tool invocation
failed, the status check still reports the download directory as
existing and succeeded. -/
theorem C10_witness :
    validId "dQw4w9WgXcQ" = true ∧ validFormatSpec "137x140" = true ∧
    getDownloadStatus (downloadVideo c7VidEnv [] c10Args).2.1
        "dQw4w9WgXcQ" "137x140" none =
      .ok "dQw4w9WgXcQ" "files/dQw4w9WgXcQ/137x140"
        "info/dQw4w9WgXcQ/137x140/dQw4w9WgXcQ.info.json" := by
  have h := C10_status_after_download c7VidEnv [] c10Args (by decide) (by decide)
    (by decide)
  exact ⟨by decide, by decide, h.2.2.2⟩

end YTLantern
